import Mathlib

/-!
Verification of the message ingestion and storage engine of the
lyftr-backend-assignment repository (FastAPI + SQLite webhook service).

The development shallowly embeds the core of the service:

* `app/models.py` — field validators of `WebhookRequest`
  (`validate_phone_number`, `validate_timestamp`);
* `app/storage.py` — `Database.insert_message`, `Database.get_messages`,
  `Database.get_stats`, with the SQLite store modelled as a `List Row`
  threaded through the operations, SQL `ORDER BY` modelled as sorting by
  the corresponding total order, and the `except`-clauses modelled by an
  explicit `ioFail` flag;
* `app/main.py` — `verify_signature` and the `/webhook` handler, with the
  HMAC-SHA256 hex digest abstracted as a function parameter `hmacHex`
  (the handler only compares the digest for equality via
  `hmac.compare_digest`, whose `TypeError` on non-ASCII string arguments
  is modelled explicitly by `compare_digest` returning `none`).

SQLite stores and compares `TEXT` values as raw bytes; since UTF-8 byte
order agrees with code-point order, string comparison is modelled by the
lexicographic order on `List Char` (`String.data`).
-/

/-- Row of the `messages` table created in `Database._init_db`:
`message_id TEXT PRIMARY KEY, from_msisdn TEXT NOT NULL, to_msisdn TEXT NOT
NULL, ts TEXT NOT NULL, text TEXT, created_at TEXT NOT NULL`. -/
structure Row where
  message_id : String
  from_msisdn : String
  to_msisdn : String
  ts : String
  text : Option String
  created_at : String
deriving DecidableEq

/-- Result shape of `Database.get_stats` (`app/storage.py`): the dict with
keys `total_messages`, `senders_count`, `messages_per_sender` (a list of
sender/count pairs, serialized under JSON keys `from` and `count`),
`first_message_ts`, `last_message_ts`. -/
structure Stats where
  total_messages : Nat
  senders_count : Nat
  messages_per_sender : List (String × Nat)
  first_message_ts : Option String
  last_message_ts : Option String
deriving DecidableEq

/-- ASCII lower-casing of a single character: maps `A`..`Z` (code points
65..90) to `a`..`z` and leaves every other character unchanged.  This is
exactly SQLite's `LOWER()` folding, and it agrees with Python's
`str.lower` and with SQLite's `LIKE` case folding on the ASCII range (the
development only relies on it there). -/
def asciiLower (c : Char) : Char :=
  if 65 ≤ c.toNat ∧ c.toNat ≤ 90 then Char.ofNat (c.toNat + 32) else c

theorem asciiLower_toNat (c : Char) :
    (asciiLower c).toNat = if 65 ≤ c.toNat ∧ c.toNat ≤ 90 then c.toNat + 32 else c.toNat := by
  unfold asciiLower
  split
  case isTrue h =>
    have hv : Nat.isValidChar (c.toNat + 32) := Or.inl (by omega)
    simp only [Char.ofNat, Char.toNat] at hv ⊢
    rw [dif_pos hv]
    simp [Char.ofNatAux, UInt32.ofNat', UInt32.toNat]
  case isFalse h => rfl

theorem asciiLower_eq_self (c : Char) (h : ¬(65 ≤ c.toNat ∧ c.toNat ≤ 90)) :
    asciiLower c = c := by
  unfold asciiLower
  rw [if_neg h]

theorem asciiLower_idem (c : Char) : asciiLower (asciiLower c) = asciiLower c := by
  apply asciiLower_eq_self
  rw [asciiLower_toNat]
  split <;> omega

/-- Case-insensitive (ASCII) character comparison, as performed by SQLite's
`LIKE` operator. -/
def charCI (a b : Char) : Bool := asciiLower a == asciiLower b

theorem charCI_asciiLower (a b : Char) :
    charCI (asciiLower a) (asciiLower b) = charCI a b := by
  unfold charCI
  rw [asciiLower_idem, asciiLower_idem]

/-- Python `str.lower`, per character, tabulated exactly for code points
below `0x100`: the ASCII letters `A`..`Z` (65..90) and the Latin-1
uppercase letters `À`..`Ö` (192..214) and `Ø`..`Þ` (216..222) map to their
lowercase forms 32 code points higher; every other character below U+0100
is unchanged.  Case mappings above U+00FF (including the multi-character
ones such as `İ`) are outside the tabulated range; the theorems below only
evaluate this function below U+0100, where the table agrees with CPython. -/
def pyLowerChar (c : Char) : Char :=
  if (65 ≤ c.toNat ∧ c.toNat ≤ 90) ∨ (192 ≤ c.toNat ∧ c.toNat ≤ 214) ∨
      (216 ≤ c.toNat ∧ c.toNat ≤ 222)
  then Char.ofNat (c.toNat + 32) else c

theorem pyLowerChar_eq_asciiLower_of_ascii (c : Char) (h : c.toNat < 128) :
    pyLowerChar c = asciiLower c := by
  unfold pyLowerChar asciiLower
  by_cases h1 : 65 ≤ c.toNat ∧ c.toNat ≤ 90
  · rw [if_pos (Or.inl h1), if_pos h1]
  · have hg : ¬((65 ≤ c.toNat ∧ c.toNat ≤ 90) ∨ (192 ≤ c.toNat ∧ c.toNat ≤ 214) ∨
        (216 ≤ c.toNat ∧ c.toNat ≤ 222)) := by
      rintro (h2 | h2 | h2)
      · exact h1 h2
      · omega
      · omega
    rw [if_neg hg, if_neg h1]

/-- SQLite `LIKE` pattern matching (no `ESCAPE` clause): `%` matches any
sequence of characters, `_` matches any single character, and every other
pattern character matches case-insensitively (ASCII folding). -/
def likeM : List Char → List Char → Bool
  | [], s => s.isEmpty
  | c :: p, s =>
    if c == '%' then
      (s.tails).any (fun t => likeM p t)
    else
      match s with
      | [] => false
      | d :: s2 => (if c == '_' then true else charCI c d) && likeM p s2

/-- Case-insensitive test that the first list occurs at the start of the
second. -/
def startsCI : List Char → List Char → Bool
  | [], _ => true
  | _ :: _, [] => false
  | a :: p, b :: s => charCI a b && startsCI p s

/-- Case-insensitive literal-substring containment: some suffix of `s`
starts with `p`. -/
def containsCI (p s : List Char) : Bool := (s.tails).any (fun t => startsCI p t)

/-- Python `str.isdigit`, per character: true for characters whose Unicode
`Numeric_Type` is `Digit` or `Decimal`.  Tabulated here for code points
below `0x100`: the ASCII digits `0`..`9` and the superscripts
`¹` (U+00B9), `²` (U+00B2), `³` (U+00B3).  Further digit characters exist
above U+00FF (for instance the Arabic-Indic digits); the theorems below
only evaluate the predicate below U+0100, where this table is exact. -/
def pyIsDigit (c : Char) : Bool :=
  decide (48 ≤ c.toNat ∧ c.toNat ≤ 57) ||
  decide (c.toNat = 178 ∨ c.toNat = 179 ∨ c.toNat = 185)

/-- ASCII-digit test, used by the specification side of claim C6. -/
def asciiDigit (c : Char) : Bool := decide (48 ≤ c.toNat ∧ c.toNat ≤ 57)

/-- Validator `WebhookRequest.validate_phone_number` (`app/models.py`):
accepts `v` iff `v.startswith("+")` and `v[1:].isdigit()` — the remainder
must be non-empty and consist of Python digits. -/
def validate_phone_number (v : String) : Bool :=
  match v.data with
  | c :: rest => c == '+' && (!rest.isEmpty && rest.all pyIsDigit)
  | [] => false

/-- Specification-side phone rule of claim C6: `+` followed by at least one
ASCII digit. -/
def phoneSpecAscii (v : String) : Bool :=
  match v.data with
  | c :: rest => c == '+' && (!rest.isEmpty && rest.all asciiDigit)
  | [] => false

/-- Python `v.replace("Z", "+00:00")` on the character list: every
occurrence of `Z` is replaced, not only a trailing one. -/
def replaceAllZ : List Char → List Char
  | [] => []
  | c :: cs =>
    if c == 'Z' then '+' :: '0' :: '0' :: ':' :: '0' :: '0' :: replaceAllZ cs
    else c :: replaceAllZ cs

/-- Python `v.endswith("Z")`. -/
def endsWithZ (l : List Char) : Bool := l.getLast? == some 'Z'

/-- Substitution of only a trailing `Z` by `+00:00`, as described by the
specification text for the timestamp validator. -/
def trailingSubstZ (l : List Char) : List Char :=
  if endsWithZ l then l.dropLast ++ ("+00:00").data else l

/-- Validator `WebhookRequest.validate_timestamp` (`app/models.py`):
`datetime.fromisoformat(v.replace("Z", "+00:00"))` must succeed and `v`
must end with `Z`.  The ISO-8601 parser is abstracted as the parameter
`fromiso`; the code applies it to the string with EVERY `Z` replaced. -/
def validate_timestamp (fromiso : String → Bool) (v : String) : Bool :=
  fromiso (String.mk (replaceAllZ v.data)) && endsWithZ v.data

/-- Digit read helper for the `fromisoformat` model. -/
def readDigit (c : Char) : Option Nat :=
  if 48 ≤ c.toNat ∧ c.toNat ≤ 57 then some (c.toNat - 48) else none

/-- Read two decimal digits. -/
def read2 : List Char → Option (Nat × List Char)
  | a :: b :: rest =>
    match readDigit a, readDigit b with
    | some x, some y => some (10 * x + y, rest)
    | _, _ => none
  | _ => none

/-- Expect a fixed character. -/
def expectChar (c : Char) : List Char → Option (List Char)
  | x :: rest => if x == c then some rest else none
  | [] => none

def isLeapYear (y : Nat) : Bool :=
  (y % 4 == 0 && y % 100 != 0) || y % 400 == 0

def daysInMonth (y m : Nat) : Nat :=
  if m = 2 then (if isLeapYear y then 29 else 28)
  else if m = 4 ∨ m = 6 ∨ m = 9 ∨ m = 11 then 30
  else 31

/-- Parse `YYYY-MM-DD` with calendar validity checks, returning the rest of
the input. -/
def parseDate (l : List Char) : Option (List Char) :=
  match read2 l with
  | none => none
  | some (y1, r1) =>
    match read2 r1 with
    | none => none
    | some (y2, r2) =>
      match expectChar '-' r2 with
      | none => none
      | some r3 =>
        match read2 r3 with
        | none => none
        | some (m, r4) =>
          match expectChar '-' r4 with
          | none => none
          | some r5 =>
            match read2 r5 with
            | none => none
            | some (d, r6) =>
              if 1 ≤ m ∧ m ≤ 12 ∧ 1 ≤ d ∧ d ≤ daysInMonth (100 * y1 + y2) m
              then some r6 else none

/-- Consume a maximal run of decimal digits, returning how many were
consumed. -/
def skipDigits : List Char → Nat × List Char
  | [] => (0, [])
  | c :: rest =>
    if 48 ≤ c.toNat ∧ c.toNat ≤ 57 then
      let (n, r) := skipDigits rest
      (n + 1, r)
    else (0, c :: rest)

/-- Parse `HH[:MM[:SS[{.,}digits]]]` with range checks, returning the rest
of the input. -/
def parseTime (l : List Char) : Option (List Char) :=
  match read2 l with
  | none => none
  | some (hh, r1) =>
    if hh ≥ 24 then none
    else
      match r1 with
      | ':' :: r2 =>
        match read2 r2 with
        | none => none
        | some (mm, r3) =>
          if mm ≥ 60 then none
          else
            match r3 with
            | ':' :: r4 =>
              match read2 r4 with
              | none => none
              | some (ss, r5) =>
                if ss ≥ 60 then none
                else
                  match r5 with
                  | c :: r6 =>
                    if c == '.' ∨ c == ',' then
                      let (n, r7) := skipDigits r6
                      if n = 0 then none else some r7
                    else some (c :: r6)
                  | [] => some []
            | _ => some r3
      | _ => some r1

/-- Parse a UTC offset of the form `+HH:MM` or `-HH:MM`. -/
def parseOffset (l : List Char) : Option (List Char) :=
  match l with
  | c :: r1 =>
    if c == '+' ∨ c == '-' then
      match read2 r1 with
      | none => none
      | some (hh, r2) =>
        if hh ≥ 24 then none
        else
          match expectChar ':' r2 with
          | none => none
          | some r3 =>
            match read2 r3 with
            | none => none
            | some (mm, r4) => if mm ≥ 60 then none else some r4
    else none
  | [] => none

/-- Model of CPython `datetime.fromisoformat` on the fragment the claims
exercise: an extended-format date `YYYY-MM-DD`, optionally followed by any
single separator character (CPython allows an arbitrary separator in place
of `T`), a time `HH[:MM[:SS[{.,}digits]]]`, and an optional `±HH:MM`
offset.  Forms CPython additionally accepts (basic format without
separators, `±HH` or `±HH:MM:SS` offsets, week dates) are outside the
modelled fragment; the development only applies this function to concrete
strings inside the fragment, where it agrees with CPython. -/
def fromisoModel (v : String) : Bool :=
  match parseDate v.data with
  | none => false
  | some [] => true
  | some (_ :: rest) =>
    match parseTime rest with
    | none => false
    | some [] => true
    | some rest2 =>
      match parseOffset rest2 with
      | some [] => true
      | _ => false

/-- Total order used by `ORDER BY ts ASC, message_id ASC` in
`Database.get_messages`: SQLite compares `TEXT` values bytewise, which on
UTF-8 agrees with the lexicographic order on `String.data`. -/
def rowOrd (a b : Row) : Prop :=
  a.ts.data < b.ts.data ∨ (a.ts.data = b.ts.data ∧ a.message_id.data ≤ b.message_id.data)

instance instDecRowOrd : DecidableRel rowOrd := fun a b => by
  unfold rowOrd
  exact inferInstance

instance instTotalRowOrd : IsTotal Row rowOrd := by
  constructor
  intro a b
  rcases lt_trichotomy a.ts.data b.ts.data with h | h | h
  · exact Or.inl (Or.inl h)
  · rcases le_total a.message_id.data b.message_id.data with h2 | h2
    · exact Or.inl (Or.inr ⟨h, h2⟩)
    · exact Or.inr (Or.inr ⟨h.symm, h2⟩)
  · exact Or.inr (Or.inl h)

instance instTransRowOrd : IsTrans Row rowOrd := by
  constructor
  intro a b c hab hbc
  rcases hab with h1 | ⟨h1, h1m⟩
  · rcases hbc with h2 | ⟨h2, _⟩
    · exact Or.inl (lt_trans h1 h2)
    · exact Or.inl (h2 ▸ h1)
  · rcases hbc with h2 | ⟨h2, h2m⟩
    · exact Or.inl (h1 ▸ h2)
    · exact Or.inr ⟨h1.trans h2, le_trans h1m h2m⟩

/-- Ascending sender order used to model the order in which SQLite's
`GROUP BY from_msisdn` (via a transient sorted index) visits the groups. -/
def strAsc (a b : String) : Prop := a.data ≤ b.data

instance instDecStrAsc : DecidableRel strAsc := fun a b => by
  unfold strAsc
  exact inferInstance

instance instTotalStrAsc : IsTotal String strAsc :=
  ⟨fun a b => le_total a.data b.data⟩

instance instTransStrAsc : IsTrans String strAsc :=
  ⟨fun _ _ _ h1 h2 => le_trans h1 h2⟩

/-- Descending count order of `ORDER BY count DESC` over the grouped
sender/count pairs. -/
def countDesc (a b : String × Nat) : Prop := b.2 ≤ a.2

instance instDecCountDesc : DecidableRel countDesc := fun a b => by
  unfold countDesc
  exact inferInstance

instance instTotalCountDesc : IsTotal (String × Nat) countDesc :=
  ⟨fun a b => (Nat.le_total b.2 a.2).imp id id⟩

instance instTransCountDesc : IsTrans (String × Nat) countDesc :=
  ⟨fun _ _ _ h1 h2 => Nat.le_trans h2 h1⟩

/-- Method `Database.insert_message` (`app/storage.py`).  `created_at` is
the value `datetime.utcnow().isoformat() + "Z"` computed at the write
attempt, passed here as a parameter.  A duplicate `message_id` violates the
`PRIMARY KEY` constraint, SQLite raises `IntegrityError`, the transaction
is rolled back and the method returns `(True, True)` with the store
untouched; a successful `INSERT` appends the row and returns
`(True, False)`; any other exception (connection or disk failure, modelled
by `ioFail`) yields `(False, False)` with the store untouched. -/
def insert_message (ioFail : Bool) (store : List Row)
    (message_id from_msisdn to_msisdn ts : String) (text : Option String)
    (created_at : String) : (Bool × Bool) × List Row :=
  if ioFail then ((false, false), store)
  else if store.any (fun r => r.message_id == message_id) then
    ((true, true), store)
  else
    ((true, false), store ++ [⟨message_id, from_msisdn, to_msisdn, ts, text, created_at⟩])

/-- Condition `LOWER(text) LIKE ?` with parameter `f"%{q.lower()}%"` from
`Database.get_messages`: SQL `LOWER` of a `NULL` text is `NULL`, so rows
without text never match; otherwise the text, lowercased by SQLite `LOWER`
(ASCII folding, `asciiLower`), is matched under `LIKE` semantics against
the `%`-wrapped query, lowercased by Python `str.lower` (`pyLowerChar`,
which also lowers non-ASCII letters such as `É`).  The two lowercasings
differ outside ASCII, so for a query such as `É` the condition matches
text `é` but not text `É`. -/
def likeTextCond (q : String) (r : Row) : Bool :=
  match r.text with
  | none => false
  | some t => likeM ('%' :: ((q.data.map pyLowerChar) ++ ['%'])) (t.data.map asciiLower)

/-- WHERE-clause construction of `Database.get_messages`: each of the three
filters contributes a condition only when the Python value is truthy, i.e.
not `None` and not the empty string. -/
def buildConds (from_msisdn since q : Option String) : List (Row → Bool) :=
  (match from_msisdn with
   | some f => if f == "" then [] else [fun r => r.from_msisdn == f]
   | none => []) ++
  (match since with
   | some s => if s == "" then [] else [fun r => decide (s.data ≤ r.ts.data)]
   | none => []) ++
  (match q with
   | some qs => if qs == "" then [] else [fun r => likeTextCond qs r]
   | none => [])

/-- Projection of a stored row to the dict produced by
`Database.get_messages` (`SELECT message_id, from_msisdn, to_msisdn, ts,
text`; `from_msisdn` and `to_msisdn` are serialized under the JSON keys
`from` and `to`; `created_at` is not selected). -/
structure MessageOut where
  message_id : String
  from_msisdn : String
  to_msisdn : String
  ts : String
  text : Option String
deriving DecidableEq

def rowToDict (r : Row) : MessageOut :=
  ⟨r.message_id, r.from_msisdn, r.to_msisdn, r.ts, r.text⟩

/-- Method `Database.get_messages` (`app/storage.py`): counts the rows
matching the WHERE clause, then returns the window
`LIMIT limit OFFSET offset` of the matching rows ordered by
`ts ASC, message_id ASC`.  `ORDER BY` is modelled as sorting by the total
order `rowOrd`; a raised storage exception (`ioFail`) is caught and turned
into `([], 0)`. -/
def get_messages (ioFail : Bool) (store : List Row) (limit offset : Nat)
    (from_msisdn since q : Option String) : List MessageOut × Nat :=
  if ioFail then ([], 0)
  else
    let conds := buildConds from_msisdn since q
    let matching := store.filter (fun r => conds.all (fun c => c r))
    let total := matching.length
    let sorted := List.insertionSort rowOrd matching
    (((sorted.drop offset).take limit).map rowToDict, total)

/-- Least element of a list of strings under bytewise comparison, as
computed by SQL `MIN(ts)`; `none` on the empty table. -/
def sqlMinStr : List String → Option String
  | [] => none
  | t :: ts => some (ts.foldl (fun m x => if x.data < m.data then x else m) t)

/-- Greatest element, as computed by SQL `MAX(ts)`. -/
def sqlMaxStr : List String → Option String
  | [] => none
  | t :: ts => some (ts.foldl (fun m x => if m.data < x.data then x else m) t)

/-- Method `Database.get_stats` (`app/storage.py`): `COUNT(*)`,
`COUNT(DISTINCT from_msisdn)`, the ten first groups of
`GROUP BY from_msisdn ORDER BY count DESC LIMIT 10`, and `MIN(ts)` /
`MAX(ts)`.  SQLite leaves the relative order of equal-count groups
unspecified but fixed for a given store; the model realizes one such rule
by sorting the groups (visited in ascending sender order) with a stable
sort.  The Python code maps a falsy (`None` or empty) `MIN`/`MAX` result to
`None`.  A raised storage exception (`ioFail`) is caught and turned into
the all-zero dict. -/
def get_stats (ioFail : Bool) (store : List Row) : Stats :=
  if ioFail then ⟨0, 0, [], none, none⟩
  else
    let senders := (store.map (fun r => r.from_msisdn)).dedup
    let groups := List.insertionSort strAsc senders
    let pairs := groups.map (fun f => (f, store.countP (fun r => r.from_msisdn == f)))
    let top := (List.insertionSort countDesc pairs).take 10
    let tss := store.map (fun r => r.ts)
    let firstTs := match sqlMinStr tss with
      | none => none
      | some s => if s == "" then none else some s
    let lastTs := match sqlMaxStr tss with
      | none => none
      | some s => if s == "" then none else some s
    ⟨store.length, senders.length, top, firstTs, lastTs⟩

/-- Test that every character of a string is ASCII. -/
def isAsciiStr (s : String) : Bool := s.data.all (fun c => decide (c.toNat < 128))

/-- Python `hmac.compare_digest` on two `str` arguments: a constant-time
equality when both strings are ASCII-only, and a raised
`TypeError: comparing strings with non-ASCII characters is not supported`
otherwise, modelled by `none`. -/
def compare_digest (a b : String) : Option Bool :=
  if isAsciiStr a && isAsciiStr b then some (a == b) else none

/-- Function `verify_signature` (`app/main.py`): returns `False` when
`settings.WEBHOOK_SECRET` is unset (`none`) or empty, otherwise compares
the hex HMAC-SHA256 digest of the body under the secret with the provided
signature using `hmac.compare_digest`.  The digest computation is
abstracted as `hmacHex`; a real HMAC-SHA256 hex digest is a non-empty
ASCII string, so `compare_digest` raises (`none`) exactly when the
provided signature contains a non-ASCII character. -/
def verify_signature (hmacHex : String → String → String)
    (secret : Option String) (body : String) (signature : String) : Option Bool :=
  match secret with
  | none => some false
  | some sec => if sec == "" then some false else compare_digest (hmacHex sec body) signature

/-- Signature acceptance test of the `/webhook` handler (`app/main.py`):
`x_signature and verify_signature(body, x_signature)` — an absent or empty
`X-Signature` header is rejected before `verify_signature` is called, so
the `TypeError` path (`none`) can only be reached with a non-empty
header. -/
def signature_check (hmacHex : String → String → String)
    (secret : Option String) (body : String) (xSignature : Option String) : Option Bool :=
  match xSignature with
  | none => some false
  | some s => if s == "" then some false else verify_signature hmacHex secret body s

/-- Outcome taxonomy of the `/webhook` handler: HTTP 401 on a bad
signature, HTTP 422 on JSON or validation errors, HTTP 500 (raised
`HTTPException`) when the insert fails, `{"status": "ok"}` on success
(duplicate or not), and `unhandledError` for an exception the handler does
not catch (the `TypeError` out of `hmac.compare_digest`), which escapes to
the framework and is answered as HTTP 500. -/
inductive IngestOutcome where
  | invalidSignature
  | unprocessable
  | ok (duplicate : Bool)
  | internalError
  | unhandledError
deriving DecidableEq

/-- Parsed and validated body of a webhook request (`WebhookRequest` in
`app/models.py`). -/
structure WebhookData where
  message_id : String
  from_msisdn : String
  to_msisdn : String
  ts : String
  text : Option String

/-- Handler `webhook` (`app/main.py`): verifies the signature over the raw
body, parses and validates the JSON payload (abstracted as
`parseValidate`, returning `none` on `JSONDecodeError` or
`ValidationError`), then inserts the message.  The store is threaded
explicitly; `now` stands for the server clock read inside
`insert_message`.  A `TypeError` raised inside `verify_signature`
(`signature_check` = `none`) is not caught by the handler and escapes
before any parsing or insert. -/
def webhook (hmacHex : String → String → String)
    (parseValidate : String → Option WebhookData)
    (secret : Option String) (ioFail : Bool) (now : String)
    (store : List Row) (body : String) (xSignature : Option String) :
    IngestOutcome × List Row :=
  match signature_check hmacHex secret body xSignature with
  | none => (.unhandledError, store)
  | some false => (.invalidSignature, store)
  | some true =>
    match parseValidate body with
    | none => (.unprocessable, store)
    | some d =>
      let res := insert_message ioFail store d.message_id d.from_msisdn d.to_msisdn d.ts d.text now
      if res.1.1 then (.ok res.1.2, res.2)
      else (.internalError, res.2)

/-- Specification-side row filter of claim C3: sender equality when `from`
is given, inclusive lexicographic lower bound on `ts` when `since` is
given. -/
def specMatch (from_msisdn since : Option String) (r : Row) : Bool :=
  (match from_msisdn with
   | none => true
   | some f => r.from_msisdn == f) &&
  (match since with
   | none => true
   | some s => decide (s.data ≤ r.ts.data))

theorem char_toNat_inj {a b : Char} (h : a.toNat = b.toNat) : a = b :=
  Char.ext (UInt32.ext h)

theorem all_eq_of_pointwise {α : Type} (l : List α) (p q : α → Bool)
    (h : ∀ x ∈ l, p x = q x) : l.all p = l.all q := by
  induction l with
  | nil => rfl
  | cons a as ih =>
    simp only [List.all_cons]
    rw [h a (List.mem_cons_self a as), ih (fun x hx => h x (List.mem_cons_of_mem a hx))]

theorem any_eq_of_pointwise {α : Type} (l : List α) (p q : α → Bool)
    (h : ∀ x ∈ l, p x = q x) : l.any p = l.any q := by
  induction l with
  | nil => rfl
  | cons a as ih =>
    simp only [List.any_cons]
    rw [h a (List.mem_cons_self a as), ih (fun x hx => h x (List.mem_cons_of_mem a hx))]

theorem map_eq_of_pointwise {α β : Type} (l : List α) (f g : α → β)
    (h : ∀ x ∈ l, f x = g x) : l.map f = l.map g := by
  induction l with
  | nil => rfl
  | cons a as ih =>
    simp only [List.map_cons]
    rw [h a (List.mem_cons_self a as), ih (fun x hx => h x (List.mem_cons_of_mem a hx))]

/-- C5: when the underlying storage raises during a read (`ioFail = true`),
`Database.get_messages` returns the empty list with zero total and
`Database.get_stats` returns the all-zero statistics (zero counts, empty
sender list, absent timestamps); both `except`-branches swallow the error,
so the embedded read operations are total and never propagate a storage
failure. -/
theorem read_path_soft_fail (store : List Row) (limit offset : Nat)
    (f s q : Option String) :
    get_messages true store limit offset f s q = ([], 0) ∧
    get_stats true store = ⟨0, 0, [], none, none⟩ :=
  ⟨rfl, rfl⟩

/-- C10: passing the empty string for any of the `from`, `since`, `q`
filters of `Database.get_messages` yields exactly the same result as
omitting the filter, because the Python truthiness test `if from_msisdn:`
(etc.) skips the empty string; in particular an empty `q` does not restrict
the result to rows with non-null text. -/
theorem empty_filters_treated_as_absent (store : List Row) (limit offset : Nat)
    (f s q : Option String) :
    get_messages false store limit offset (some "") s q =
      get_messages false store limit offset none s q ∧
    get_messages false store limit offset f (some "") q =
      get_messages false store limit offset f none q ∧
    get_messages false store limit offset f s (some "") =
      get_messages false store limit offset f s none :=
  ⟨rfl, rfl, rfl⟩

/-- C1: inserting a message with a fresh `message_id` returns
`(success, is_duplicate) = (True, False)` and appends exactly that one row
with the `created_at` of this call; any later insert with the same
`message_id` (whatever the other fields and clock read) returns
`(True, True)` and leaves the store unchanged, so the store keeps exactly
one row for the id, with the original `created_at`. -/
theorem insert_message_idempotent (store : List Row)
    (mid f t ts c1 f2 t2 ts2 c2 : String) (txt txt2 : Option String)
    (hfresh : store.any (fun r => r.message_id == mid) = false) :
    insert_message false store mid f t ts txt c1 =
      ((true, false), store ++ [⟨mid, f, t, ts, txt, c1⟩]) ∧
    (store ++ [(⟨mid, f, t, ts, txt, c1⟩ : Row)]).countP (fun r => r.message_id == mid) = 1 ∧
    (store ++ [(⟨mid, f, t, ts, txt, c1⟩ : Row)]).filter (fun r => r.message_id == mid) =
      [⟨mid, f, t, ts, txt, c1⟩] ∧
    insert_message false (store ++ [(⟨mid, f, t, ts, txt, c1⟩ : Row)]) mid f2 t2 ts2 txt2 c2 =
      ((true, true), store ++ [⟨mid, f, t, ts, txt, c1⟩]) ∧
    (∀ store2, store2.any (fun r => r.message_id == mid) = true →
      insert_message false store2 mid f2 t2 ts2 txt2 c2 = ((true, true), store2)) := by
  have h0 : ∀ r ∈ store, ¬(r.message_id == mid) = true := List.any_eq_false.mp hfresh
  refine ⟨?_, ?_, ?_, ?_, ?_⟩
  · simp [insert_message, hfresh]
  · rw [List.countP_append]
    rw [List.countP_eq_zero.mpr h0]
    simp [List.countP_cons]
  · rw [List.filter_append]
    rw [List.filter_eq_nil_iff.mpr h0]
    simp [List.filter_cons]
  · have hdup : ((store ++ [(⟨mid, f, t, ts, txt, c1⟩ : Row)]).any
        (fun r => r.message_id == mid)) = true := by
      rw [List.any_append]
      simp
    simp [insert_message, hdup]
  · intro store2 h2
    simp [insert_message, h2]

/-- C1 witness: a concrete fresh insert followed by a duplicate insert. -/
theorem insert_message_idempotent_witness :
    ([(⟨"a1", "+2", "+3", "2025-01-01T00:00:00Z", none, "c0"⟩ : Row)].any
      (fun r => r.message_id == "m1") = false) ∧
    (insert_message false [⟨"a1", "+2", "+3", "2025-01-01T00:00:00Z", none, "c0"⟩]
        "m1" "+7" "+8" "2025-01-02T00:00:00Z" (some "hi") "c1" =
      ((true, false), [⟨"a1", "+2", "+3", "2025-01-01T00:00:00Z", none, "c0"⟩,
        ⟨"m1", "+7", "+8", "2025-01-02T00:00:00Z", some "hi", "c1"⟩]) ∧
    ([(⟨"a1", "+2", "+3", "2025-01-01T00:00:00Z", none, "c0"⟩ : Row),
        ⟨"m1", "+7", "+8", "2025-01-02T00:00:00Z", some "hi", "c1"⟩].countP
      (fun r => r.message_id == "m1") = 1) ∧
    ([(⟨"a1", "+2", "+3", "2025-01-01T00:00:00Z", none, "c0"⟩ : Row),
        ⟨"m1", "+7", "+8", "2025-01-02T00:00:00Z", some "hi", "c1"⟩].filter
      (fun r => r.message_id == "m1") =
      [⟨"m1", "+7", "+8", "2025-01-02T00:00:00Z", some "hi", "c1"⟩]) ∧
    (insert_message false [⟨"a1", "+2", "+3", "2025-01-01T00:00:00Z", none, "c0"⟩,
        ⟨"m1", "+7", "+8", "2025-01-02T00:00:00Z", some "hi", "c1"⟩]
        "m1" "+9" "+9" "2026-01-01T00:00:00Z" none "c2" =
      ((true, true), [⟨"a1", "+2", "+3", "2025-01-01T00:00:00Z", none, "c0"⟩,
        ⟨"m1", "+7", "+8", "2025-01-02T00:00:00Z", some "hi", "c1"⟩])) ∧
    (∀ store2, store2.any (fun r => r.message_id == "m1") = true →
      insert_message false store2 "m1" "+9" "+9" "2026-01-01T00:00:00Z" none "c2" =
        ((true, true), store2))) :=
  ⟨by decide,
   by
    have h := insert_message_idempotent
      [⟨"a1", "+2", "+3", "2025-01-01T00:00:00Z", none, "c0"⟩]
      "m1" "+7" "+8" "2025-01-02T00:00:00Z" "c1" "+9" "+9" "2026-01-01T00:00:00Z" "c2"
      (some "hi") none (by decide)
    exact h⟩

/-- C2 (amended): when the `X-Signature` header is missing or does not
equal the hex HMAC-SHA256 digest of the raw body under the configured
secret (the digest is always a non-empty ASCII string, hypothesis `hdig`),
the `/webhook` handler never reaches parsing or insert and the store is
unchanged; when furthermore the header is missing or an ASCII string, the
outcome is `invalid signature` (HTTP 401).  A non-ASCII non-matching
header instead makes `hmac.compare_digest` raise `TypeError`, which
escapes the handler (HTTP 500) — still with the store untouched; see the
counterexample. -/
theorem webhook_rejects_bad_signature
    (hmacHex : String → String → String) (pv : String → Option WebhookData)
    (secret : Option String) (ioFail : Bool) (now : String)
    (store : List Row) (body : String) (sig : Option String)
    (hdig : ∀ s2 b2, isAsciiStr (hmacHex s2 b2) = true)
    (h : sig = none ∨ ∃ s, sig = some s ∧ ∀ sec, secret = some sec → s ≠ hmacHex sec body) :
    (webhook hmacHex pv secret ioFail now store body sig).2 = store ∧
    ((sig = none ∨ ∃ s, sig = some s ∧ isAsciiStr s = true) →
      webhook hmacHex pv secret ioFail now store body sig = (.invalidSignature, store)) := by
  rcases h with hnone | ⟨s, hs, hne⟩
  · subst hnone
    exact ⟨rfl, fun _ => rfl⟩
  · subst hs
    by_cases he : (s == "") = true
    · have hchk : signature_check hmacHex secret body (some s) = some false := by
        show (if (s == "") = true then some false
          else verify_signature hmacHex secret body s) = some false
        rw [if_pos he]
      have hw : webhook hmacHex pv secret ioFail now store body (some s) =
          (.invalidSignature, store) := by
        simp [webhook, hchk]
      exact ⟨by rw [hw], fun _ => hw⟩
    · cases secret with
      | none =>
        have hchk : signature_check hmacHex none body (some s) = some false := by
          show (if (s == "") = true then some false
            else verify_signature hmacHex none body s) = some false
          rw [if_neg he]
          rfl
        have hw : webhook hmacHex pv none ioFail now store body (some s) =
            (.invalidSignature, store) := by
          simp [webhook, hchk]
        exact ⟨by rw [hw], fun _ => hw⟩
      | some sec =>
        by_cases hsece : (sec == "") = true
        · have hchk : signature_check hmacHex (some sec) body (some s) = some false := by
            show (if (s == "") = true then some false
              else verify_signature hmacHex (some sec) body s) = some false
            rw [if_neg he]
            show (if (sec == "") = true then some false
              else compare_digest (hmacHex sec body) s) = some false
            rw [if_pos hsece]
          have hw : webhook hmacHex pv (some sec) ioFail now store body (some s) =
              (.invalidSignature, store) := by
            simp [webhook, hchk]
          exact ⟨by rw [hw], fun _ => hw⟩
        · by_cases hascii : isAsciiStr s = true
          · have hchk : signature_check hmacHex (some sec) body (some s) = some false := by
              show (if (s == "") = true then some false
                else verify_signature hmacHex (some sec) body s) = some false
              rw [if_neg he]
              show (if (sec == "") = true then some false
                else compare_digest (hmacHex sec body) s) = some false
              rw [if_neg hsece]
              unfold compare_digest
              rw [if_pos (by rw [hdig sec body, hascii]; rfl)]
              rw [beq_eq_false_iff_ne.mpr fun hd => hne sec rfl hd.symm]
            have hw : webhook hmacHex pv (some sec) ioFail now store body (some s) =
                (.invalidSignature, store) := by
              simp [webhook, hchk]
            exact ⟨by rw [hw], fun _ => hw⟩
          · have hascii2 : isAsciiStr s = false := by
              revert hascii
              cases isAsciiStr s <;> simp
            have hchk : signature_check hmacHex (some sec) body (some s) = none := by
              show (if (s == "") = true then some false
                else verify_signature hmacHex (some sec) body s) = none
              rw [if_neg he]
              show (if (sec == "") = true then some false
                else compare_digest (hmacHex sec body) s) = none
              rw [if_neg hsece]
              unfold compare_digest
              rw [if_neg (by rw [hascii2, Bool.and_false]; exact Bool.false_ne_true)]
            have hw : webhook hmacHex pv (some sec) ioFail now store body (some s) =
                (.unhandledError, store) := by
              simp [webhook, hchk]
            refine ⟨by rw [hw], ?_⟩
            rintro (hcon | ⟨s2, hs2, ha2⟩)
            · exact absurd hcon (by simp)
            · cases Option.some_injective _ hs2
              exact absurd (hascii2 ▸ ha2) Bool.false_ne_true

/-- C2 counterexample: the non-ASCII header value `é` differs from the
(ASCII) digest, so the claim as stated demands the invalid-signature
outcome, but the handler instead propagates the `TypeError` raised by
`hmac.compare_digest` (answered as HTTP 500); the store is still
untouched. -/
theorem webhook_nonascii_signature_cex :
    ("é" : String) ≠ (fun _ _ => ("d1g3st" : String)) "k3y" "payload" ∧
    webhook (fun _ _ => ("d1g3st" : String))
        (fun _ => some ⟨"m1", "+1", "+2", "2025-01-01T00:00:00Z", none⟩)
        (some "k3y") false "now0"
        [⟨"a1", "+2", "+3", "2025-01-01T00:00:00Z", none, "c0"⟩]
        "payload" (some "é") =
      (.unhandledError, [⟨"a1", "+2", "+3", "2025-01-01T00:00:00Z", none, "c0"⟩]) :=
  ⟨by decide, by decide⟩

/-- C2 witness: a concrete mismatched ASCII signature against a configured
secret yields the invalid-signature outcome and leaves a concrete store
untouched. -/
theorem webhook_rejects_bad_signature_witness :
    ((∀ s2 b2 : String, isAsciiStr ((fun _ _ => ("d1g3st" : String)) s2 b2) = true) ∧
      ((some "deadbeef" : Option String) = none ∨
        ∃ s, (some "deadbeef" : Option String) = some s ∧
          ∀ sec, (some "k3y" : Option String) = some sec →
            s ≠ (fun _ _ => ("d1g3st" : String)) sec "payload")) ∧
    ((webhook (fun _ _ => ("d1g3st" : String))
        (fun _ => some ⟨"m1", "+1", "+2", "2025-01-01T00:00:00Z", none⟩)
        (some "k3y") false "now0"
        [⟨"a1", "+2", "+3", "2025-01-01T00:00:00Z", none, "c0"⟩]
        "payload" (some "deadbeef")).2 =
      [⟨"a1", "+2", "+3", "2025-01-01T00:00:00Z", none, "c0"⟩] ∧
    (((some "deadbeef" : Option String) = none ∨
        ∃ s, (some "deadbeef" : Option String) = some s ∧ isAsciiStr s = true) →
      webhook (fun _ _ => ("d1g3st" : String))
        (fun _ => some ⟨"m1", "+1", "+2", "2025-01-01T00:00:00Z", none⟩)
        (some "k3y") false "now0"
        [⟨"a1", "+2", "+3", "2025-01-01T00:00:00Z", none, "c0"⟩]
        "payload" (some "deadbeef") =
      (.invalidSignature, [⟨"a1", "+2", "+3", "2025-01-01T00:00:00Z", none, "c0"⟩]))) :=
  ⟨⟨by intro s2 b2; show isAsciiStr "d1g3st" = true; decide,
    Or.inr ⟨"deadbeef", rfl, by intro sec hs hd; cases hs; exact absurd hd (by decide)⟩⟩,
   webhook_rejects_bad_signature _ _ _ _ _ _ _ _
     (by intro s2 b2; show isAsciiStr "d1g3st" = true; decide)
     (Or.inr ⟨"deadbeef", rfl, by intro sec hs hd; cases hs; exact absurd hd (by decide)⟩)⟩

/-- C9 (amended): `verify_signature` returns `False` without raising when
the secret is unset or empty; it returns `False` on an empty provided
signature (an HMAC-SHA256 hex digest is a non-empty ASCII string,
hypotheses `hne` and `hdig`); the handler-side gate rejects an absent or
empty `X-Signature` header before calling it; with a configured non-empty
secret and an ASCII provided signature it returns `True` exactly when the
signature equals the digest; but it is NOT total: a non-ASCII provided
signature makes `hmac.compare_digest` raise `TypeError` (the `none`
branch) — see the counterexample. -/
theorem verify_signature_spec
    (hmacHex : String → String → String) (secret : Option String)
    (body : String) (sig : Option String)
    (hne : ∀ s2 b2, hmacHex s2 b2 ≠ "")
    (hdig : ∀ s2 b2, isAsciiStr (hmacHex s2 b2) = true) :
    ((secret = none ∨ secret = some "") →
      ∀ s, verify_signature hmacHex secret body s = some false) ∧
    verify_signature hmacHex secret body "" = some false ∧
    ((sig = none ∨ sig = some "") → signature_check hmacHex secret body sig = some false) ∧
    (∀ sec s, secret = some sec → sec ≠ "" → isAsciiStr s = true →
      (verify_signature hmacHex secret body s = some true ↔ s = hmacHex sec body)) ∧
    (∀ sec s, secret = some sec → sec ≠ "" → isAsciiStr s = false →
      verify_signature hmacHex secret body s = none) := by
  refine ⟨?_, ?_, ?_, ?_, ?_⟩
  · rintro (h | h) s <;> rw [h] <;> rfl
  · cases secret with
    | none => rfl
    | some sec =>
      show (if (sec == "") = true then some false
        else compare_digest (hmacHex sec body) "") = some false
      by_cases hse : (sec == "") = true
      · rw [if_pos hse]
      · rw [if_neg hse]
        unfold compare_digest
        rw [if_pos (by rw [hdig sec body]; rfl)]
        rw [beq_eq_false_iff_ne.mpr (hne sec body)]
  · rintro (h | h) <;> rw [h] <;> rfl
  · intro sec s hsec hsne hsa
    subst hsec
    have h2 : (sec == "") = false := beq_eq_false_iff_ne.mpr hsne
    show (if (sec == "") = true then some false
      else compare_digest (hmacHex sec body) s) = some true ↔ s = hmacHex sec body
    rw [h2]
    simp only [Bool.false_eq_true, if_false]
    unfold compare_digest
    rw [if_pos (by rw [hdig sec body, hsa]; rfl)]
    simp only [Option.some.injEq, beq_iff_eq]
    exact eq_comm
  · intro sec s hsec hsne hsa
    subst hsec
    have h2 : (sec == "") = false := beq_eq_false_iff_ne.mpr hsne
    show (if (sec == "") = true then some false
      else compare_digest (hmacHex sec body) s) = none
    rw [h2]
    simp only [Bool.false_eq_true, if_false]
    unfold compare_digest
    rw [if_neg (by rw [hsa, Bool.and_false]; exact Bool.false_ne_true)]

/-- C9 counterexample: against a configured non-empty secret and a
non-empty signature — the case where the claim asserts a boolean
comparison result — the non-ASCII signature `é` sends
`hmac.compare_digest` into its `TypeError` path (`none`): the verifier
does raise. -/
theorem verify_signature_nonascii_cex :
    verify_signature (fun _ _ => ("d1g3st" : String)) (some "k3y") "payload" "é" = none ∧
    ("é" : String) ≠ "" ∧ ("k3y" : String) ≠ "" :=
  ⟨by decide, by decide, by decide⟩

/-- C9 witness: a concrete digest function with non-empty ASCII digests. -/
theorem verify_signature_spec_witness :
    ((∀ s2 b2 : String, (fun _ _ => ("d1g3st" : String)) s2 b2 ≠ "") ∧
      (∀ s2 b2 : String, isAsciiStr ((fun _ _ => ("d1g3st" : String)) s2 b2) = true)) ∧
    (((some "k3y" : Option String) = none ∨ (some "k3y" : Option String) = some "") →
      ∀ s, verify_signature (fun _ _ => ("d1g3st" : String)) (some "k3y") "payload" s =
        some false) ∧
    verify_signature (fun _ _ => ("d1g3st" : String)) (some "k3y") "payload" "" = some false ∧
    (((some "" : Option String) = none ∨ (some "" : Option String) = some "") →
      signature_check (fun _ _ => ("d1g3st" : String)) (some "k3y") "payload" (some "") =
        some false) ∧
    (∀ sec s, (some "k3y" : Option String) = some sec → sec ≠ "" → isAsciiStr s = true →
      (verify_signature (fun _ _ => ("d1g3st" : String)) (some "k3y") "payload" s = some true ↔
        s = (fun _ _ => ("d1g3st" : String)) sec "payload")) ∧
    (∀ sec s, (some "k3y" : Option String) = some sec → sec ≠ "" → isAsciiStr s = false →
      verify_signature (fun _ _ => ("d1g3st" : String)) (some "k3y") "payload" s = none) :=
  ⟨⟨by intro s2 b2; show ("d1g3st" : String) ≠ ""; decide, by intro s2 b2; show isAsciiStr "d1g3st" = true; decide⟩,
   verify_signature_spec (fun _ _ => ("d1g3st" : String)) (some "k3y") "payload" (some "")
     (by intro s2 b2; show ("d1g3st" : String) ≠ ""; decide) (by intro s2 b2; show isAsciiStr "d1g3st" = true; decide)⟩

theorem conds_all_eq_specMatch (f s : Option String) (r : Row)
    (hf : ∀ x, f = some x → x ≠ "") (hs : ∀ x, s = some x → x ≠ "") :
    (buildConds f s none).all (fun c => c r) = specMatch f s r := by
  cases f with
  | none =>
    cases s with
    | none => rfl
    | some sv =>
      have h1 : (sv == "") = false := beq_eq_false_iff_ne.mpr (hs sv rfl)
      simp [buildConds, specMatch, h1]
  | some fv =>
    have h0 : (fv == "") = false := beq_eq_false_iff_ne.mpr (hf fv rfl)
    cases s with
    | none => simp [buildConds, specMatch, h0]
    | some sv =>
      have h1 : (sv == "") = false := beq_eq_false_iff_ne.mpr (hs sv rfl)
      simp [buildConds, specMatch, h0, h1]

/-- C3 (amended): for any store, any `limit` in `[1, 100]`, any offset, and
any combination of the `from` and `since` filters with non-empty values
(the code treats an empty string as an absent filter, see
`empty_filters_treated_as_absent`), `Database.get_messages` reports as
`total` the number of rows matching the filters before pagination, and
returns the window `[offset, offset + limit)` of a sorting of exactly the
matching rows by `(ts ascending, message_id ascending)`. -/
theorem get_messages_filter_sort_window (store : List Row) (limit offset : Nat)
    (f s : Option String)
    (h1 : 1 ≤ limit) (h2 : limit ≤ 100)
    (hf : ∀ x, f = some x → x ≠ "") (hs : ∀ x, s = some x → x ≠ "") :
    (get_messages false store limit offset f s none).2 =
      (store.filter (specMatch f s)).length ∧
    ∃ L, L.Perm (store.filter (specMatch f s)) ∧ List.Sorted rowOrd L ∧
      (get_messages false store limit offset f s none).1 =
        ((L.drop offset).take limit).map rowToDict := by
  have hfe : store.filter (fun r => (buildConds f s none).all (fun c => c r)) =
      store.filter (specMatch f s) :=
    List.filter_congr (fun r _ => conds_all_eq_specMatch f s r hf hs)
  constructor
  · show (store.filter (fun r => (buildConds f s none).all (fun c => c r))).length = _
    rw [hfe]
  · refine ⟨List.insertionSort rowOrd (store.filter (specMatch f s)),
      List.perm_insertionSort _ _, List.sorted_insertionSort _ _, ?_⟩
    show ((List.insertionSort rowOrd
        (store.filter (fun r => (buildConds f s none).all (fun c => c r)))).drop offset
        |>.take limit).map rowToDict = _
    rw [hfe]

/-- C3 counterexample: with one stored row from sender `+1`, calling
`get_messages` with `from` given as the empty string returns `total = 1`,
while the claimed filter (rows whose sender equals the given `from`)
matches zero rows — the code treats the given empty-string filter as
absent instead of filtering by it. -/
theorem get_messages_empty_from_cex :
    (get_messages false [⟨"m1", "+1", "+2", "2025-01-01T00:00:00Z", none, "c0"⟩]
      1 0 (some "") none none).2 = 1 ∧
    ([(⟨"m1", "+1", "+2", "2025-01-01T00:00:00Z", none, "c0"⟩ : Row)].filter
      (specMatch (some "") none)).length = 0 :=
  ⟨rfl, rfl⟩

/-- C3 witness: two stored rows, sender filter `+1`, `since` filter, limit
2, offset 0. -/
theorem get_messages_filter_sort_window_witness :
    (1 ≤ 2 ∧ 2 ≤ 100 ∧
      (∀ x, (some "+1" : Option String) = some x → x ≠ "") ∧
      (∀ x, (some "2025" : Option String) = some x → x ≠ "")) ∧
    ((get_messages false
        [⟨"m2", "+1", "+3", "2025-01-02T00:00:00Z", none, "c2"⟩,
         ⟨"m1", "+1", "+3", "2025-01-01T00:00:00Z", none, "c1"⟩,
         ⟨"m3", "+2", "+3", "2025-01-03T00:00:00Z", none, "c3"⟩]
        2 0 (some "+1") (some "2025") none).2 =
      ([(⟨"m2", "+1", "+3", "2025-01-02T00:00:00Z", none, "c2"⟩ : Row),
         ⟨"m1", "+1", "+3", "2025-01-01T00:00:00Z", none, "c1"⟩,
         ⟨"m3", "+2", "+3", "2025-01-03T00:00:00Z", none, "c3"⟩].filter
        (specMatch (some "+1") (some "2025"))).length ∧
    ∃ L, L.Perm ([(⟨"m2", "+1", "+3", "2025-01-02T00:00:00Z", none, "c2"⟩ : Row),
         ⟨"m1", "+1", "+3", "2025-01-01T00:00:00Z", none, "c1"⟩,
         ⟨"m3", "+2", "+3", "2025-01-03T00:00:00Z", none, "c3"⟩].filter
        (specMatch (some "+1") (some "2025"))) ∧ List.Sorted rowOrd L ∧
      (get_messages false
        [⟨"m2", "+1", "+3", "2025-01-02T00:00:00Z", none, "c2"⟩,
         ⟨"m1", "+1", "+3", "2025-01-01T00:00:00Z", none, "c1"⟩,
         ⟨"m3", "+2", "+3", "2025-01-03T00:00:00Z", none, "c3"⟩]
        2 0 (some "+1") (some "2025") none).1 =
        ((L.drop 0).take 2).map rowToDict) :=
  ⟨⟨by decide, by decide, by intro x hx; cases hx; decide, by intro x hx; cases hx; decide⟩,
   get_messages_filter_sort_window _ 2 0 (some "+1") (some "2025")
     (by decide) (by decide)
     (by intro x hx; cases hx; decide) (by intro x hx; cases hx; decide)⟩

/-- C6 (amended): `validate_phone_number` accepts exactly the strings
`+` followed by a non-empty run of characters accepted by Python
`str.isdigit`; restricted to ASCII input this coincides with the rule
`+` followed by at least one ASCII digit, but `str.isdigit` also accepts
further Unicode digit characters such as `²`. -/
theorem validate_phone_ascii_spec (v : String)
    (h : ∀ c ∈ v.data, c.toNat < 128) :
    validate_phone_number v = phoneSpecAscii v := by
  unfold validate_phone_number phoneSpecAscii
  cases hv : v.data with
  | nil => rfl
  | cons c rest =>
    have hr : rest.all pyIsDigit = rest.all asciiDigit := by
      apply all_eq_of_pointwise
      intro x hx
      have hx128 : x.toNat < 128 := h x (by rw [hv]; exact List.mem_cons_of_mem _ hx)
      unfold pyIsDigit asciiDigit
      have hno : ¬(x.toNat = 178 ∨ x.toNat = 179 ∨ x.toNat = 185) := by omega
      simp [hno]
    show (c == '+' && (!rest.isEmpty && rest.all pyIsDigit)) =
      (c == '+' && (!rest.isEmpty && rest.all asciiDigit))
    rw [hr]

/-- C6 counterexample: the superscript-two character is accepted by
Python `str.isdigit`, so `+²` passes the validator although it is not
`+` followed by ASCII digits. -/
theorem validate_phone_unicode_digit_cex :
    validate_phone_number "+²" = true ∧ phoneSpecAscii "+²" = false :=
  ⟨by decide, by decide⟩

/-- C6 witness: the boundary examples of the specification. -/
theorem validate_phone_ascii_witness :
    (∀ c ∈ ("+919876543210").data, c.toNat < 128) ∧
    validate_phone_number "+919876543210" = phoneSpecAscii "+919876543210" :=
  ⟨by decide, validate_phone_ascii_spec "+919876543210" (by decide)⟩

theorem replaceAllZ_eq_trailing : ∀ l : List Char, endsWithZ l = true →
    'Z' ∉ l.dropLast → replaceAllZ l = l.dropLast ++ ("+00:00").data := by
  intro l
  induction l with
  | nil => intro hz _; simp [endsWithZ] at hz
  | cons c cs ih =>
    intro hz hint
    cases cs with
    | nil =>
      have hc : c = 'Z' := by
        simp only [endsWithZ, List.getLast?_singleton] at hz
        exact beq_iff_eq.mp hz |> Option.some_injective _
      subst hc
      decide
    | cons d ds =>
      have hz2 : endsWithZ (d :: ds) = true := by
        unfold endsWithZ at hz ⊢
        rwa [List.getLast?_cons_cons] at hz
      have hdl : (c :: d :: ds).dropLast = c :: (d :: ds).dropLast := rfl
      rw [hdl] at hint
      have hcne : (c == 'Z') = false := by
        apply beq_eq_false_iff_ne.mpr
        intro he
        exact hint (by rw [he]; exact List.mem_cons_self _ _)
      have hint2 : 'Z' ∉ (d :: ds).dropLast :=
        fun hm => hint (List.mem_cons_of_mem _ hm)
      have hstep : replaceAllZ (c :: d :: ds) = c :: replaceAllZ (d :: ds) := by
        show (if (c == 'Z') = true
          then '+' :: '0' :: '0' :: ':' :: '0' :: '0' :: replaceAllZ (d :: ds)
          else c :: replaceAllZ (d :: ds)) = c :: replaceAllZ (d :: ds)
        rw [hcne]
        simp
      rw [hstep, ih hz2 hint2, hdl]
      rfl

/-- C7 (amended): for every input whose `Z` characters, if any, occur only
in trailing position, `validate_timestamp` succeeds iff the input is
parseable after substituting the trailing `Z` with `+00:00` and ends with
`Z` (for any parser `fromiso`); the code, however, replaces EVERY `Z`
before parsing, which rejects some inputs with an interior `Z` that the
trailing-substitution reading accepts (see the counterexample). -/
theorem validate_timestamp_trailing_spec (fromiso : String → Bool) (v : String)
    (h : endsWithZ v.data = true → 'Z' ∉ v.data.dropLast) :
    validate_timestamp fromiso v =
      (fromiso (String.mk (trailingSubstZ v.data)) && endsWithZ v.data) := by
  by_cases hz : endsWithZ v.data = true
  · unfold validate_timestamp trailingSubstZ
    rw [if_pos hz, replaceAllZ_eq_trailing v.data hz (h hz)]
  · have hz2 : endsWithZ v.data = false := by
      revert hz
      cases endsWithZ v.data <;> simp
    unfold validate_timestamp
    rw [hz2, Bool.and_false, Bool.and_false]

/-- C7 counterexample: `2025-01-15Z10:00:00Z` uses `Z` as the date-time
separator (CPython `fromisoformat` accepts any single separator
character) and ends with `Z`.  Substituting only the trailing `Z` yields
the parseable `2025-01-15Z10:00:00+00:00`, so the claim as stated accepts
the value; the code replaces both `Z`s, producing the unparseable
`2025-01-15+00:0010:00:00+00:00`, and rejects it. -/
theorem validate_timestamp_replaceAll_cex :
    validate_timestamp fromisoModel "2025-01-15Z10:00:00Z" = false ∧
    (fromisoModel (String.mk (trailingSubstZ ("2025-01-15Z10:00:00Z").data)) &&
      endsWithZ ("2025-01-15Z10:00:00Z").data) = true :=
  ⟨by decide, by decide⟩

/-- C7 witness: the specification boundary example `2025-01-15T10:00:00Z`,
which has no interior `Z`. -/
theorem validate_timestamp_trailing_witness :
    (endsWithZ ("2025-01-15T10:00:00Z").data = true →
      'Z' ∉ ("2025-01-15T10:00:00Z").data.dropLast) ∧
    validate_timestamp fromisoModel "2025-01-15T10:00:00Z" =
      (fromisoModel (String.mk (trailingSubstZ ("2025-01-15T10:00:00Z").data)) &&
        endsWithZ ("2025-01-15T10:00:00Z").data) :=
  ⟨by decide, validate_timestamp_trailing_spec fromisoModel "2025-01-15T10:00:00Z" (by decide)⟩

theorem likeM_percent_any (s : List Char) : likeM ['%'] s = true := by
  show (s.tails).any (fun t => likeM [] t) = true
  rw [List.any_eq_true]
  exact ⟨[], (List.mem_tails _ _).mpr List.nil_suffix, rfl⟩

theorem likeM_trailing_percent : ∀ p : List Char,
    (∀ c ∈ p, (c == '%') = false ∧ (c == '_') = false) →
    ∀ s, likeM (p ++ ['%']) s = startsCI p s := by
  intro p
  induction p with
  | nil =>
    intro _ s
    rw [List.nil_append, likeM_percent_any]
    rfl
  | cons c p ih =>
    intro hp s
    have hc := hp c (List.mem_cons_self _ _)
    have hp2 : ∀ x ∈ p, (x == '%') = false ∧ (x == '_') = false :=
      fun x hx => hp x (List.mem_cons_of_mem _ hx)
    cases s with
    | nil =>
      show (if (c == '%') = true
        then ((List.tails ([] : List Char)).any fun t => likeM (p ++ ['%']) t)
        else false) = false
      rw [hc.1]
      simp
    | cons d s2 =>
      show (if (c == '%') = true
        then ((List.tails (d :: s2)).any fun t => likeM (p ++ ['%']) t)
        else (if (c == '_') = true then true else charCI c d) && likeM (p ++ ['%']) s2) =
        (charCI c d && startsCI p s2)
      rw [hc.1, hc.2]
      simp only [Bool.false_eq_true, if_false]
      rw [ih hp2 s2]

theorem likeM_wrapped_eq_containsCI (p : List Char)
    (hp : ∀ c ∈ p, (c == '%') = false ∧ (c == '_') = false) (s : List Char) :
    likeM ('%' :: (p ++ ['%'])) s = containsCI p s := by
  show (s.tails).any (fun t => likeM (p ++ ['%']) t) = (s.tails).any (fun t => startsCI p t)
  exact any_eq_of_pointwise _ _ _ (fun t _ => likeM_trailing_percent p hp t)

theorem startsCI_map_asciiLower : ∀ p s : List Char,
    startsCI (p.map asciiLower) (s.map asciiLower) = startsCI p s := by
  intro p
  induction p with
  | nil => intro s; rfl
  | cons a p ih =>
    intro s
    cases s with
    | nil => rfl
    | cons b s2 =>
      show (charCI (asciiLower a) (asciiLower b) &&
        startsCI (p.map asciiLower) (s2.map asciiLower)) = (charCI a b && startsCI p s2)
      rw [charCI_asciiLower, ih]

theorem containsCI_map_asciiLower (p : List Char) : ∀ s : List Char,
    containsCI (p.map asciiLower) (s.map asciiLower) = containsCI p s := by
  intro s
  induction s with
  | nil =>
    have h := startsCI_map_asciiLower p []
    rw [List.map_nil] at h
    show (startsCI (p.map asciiLower) [] || false) = (startsCI p [] || false)
    rw [h]
  | cons b s2 ih =>
    have h1 := startsCI_map_asciiLower p (b :: s2)
    rw [List.map_cons] at h1
    have ih2 : ((s2.map asciiLower).tails).any (fun t => startsCI (p.map asciiLower) t) =
        (s2.tails).any (fun t => startsCI p t) := ih
    show (startsCI (p.map asciiLower) (asciiLower b :: s2.map asciiLower) ||
      ((s2.map asciiLower).tails).any (fun t => startsCI (p.map asciiLower) t)) =
      (startsCI p (b :: s2) || (s2.tails).any (fun t => startsCI p t))
    rw [h1, ih2]

theorem map_asciiLower_no_metachar (q : List Char)
    (hq : ∀ c ∈ q, (c == '%') = false ∧ (c == '_') = false) :
    ∀ c ∈ q.map asciiLower, (c == '%') = false ∧ (c == '_') = false := by
  intro c hc
  rcases List.mem_map.mp hc with ⟨a, ha, rfl⟩
  have h2 := hq a ha
  constructor
  · apply beq_eq_false_iff_ne.mpr
    intro he
    have hn := congrArg Char.toNat he
    rw [asciiLower_toNat] at hn
    rw [show ('%').toNat = 37 from rfl] at hn
    by_cases hr : 65 ≤ a.toNat ∧ a.toNat ≤ 90
    · rw [if_pos hr] at hn
      omega
    · rw [if_neg hr] at hn
      exact beq_eq_false_iff_ne.mp h2.1 (char_toNat_inj hn)
  · apply beq_eq_false_iff_ne.mpr
    intro he
    have hn := congrArg Char.toNat he
    rw [asciiLower_toNat] at hn
    rw [show ('_').toNat = 95 from rfl] at hn
    by_cases hr : 65 ≤ a.toNat ∧ a.toNat ≤ 90
    · rw [if_pos hr] at hn
      omega
    · rw [if_neg hr] at hn
      exact beq_eq_false_iff_ne.mp h2.2 (char_toNat_inj hn)

/-- C8 (amended): the `q` condition of `Database.get_messages` matches a
row under SQL `LIKE` semantics applied to the lowercased text, so `%` and
`_` inside `q` act as wildcards; moreover the query is lowercased by
Python `str.lower` (full Unicode) while the text is lowercased by SQLite
`LOWER` and compared with `LIKE`'s ASCII-only folding, so for non-ASCII
cased query characters the match is not case-insensitive (the query `É`
matches text `é` but not text `É`).  For every non-empty ASCII `q` that
contains neither `%` nor `_`, a row is included by the `q` filter iff its
text is present and `q`, compared (ASCII) case-insensitively, occurs in it
as a literal substring — and for such non-empty `q` the filter contributes
exactly this one condition. -/
theorem likeTextCond_substring (q : String) (r : Row)
    (hq : q.data ≠ [])
    (hasciiq : ∀ c ∈ q.data, c.toNat < 128)
    (hmeta : ∀ c ∈ q.data, (c == '%') = false ∧ (c == '_') = false) :
    (likeTextCond q r = true ↔
      ∃ t, r.text = some t ∧ containsCI q.data t.data = true) ∧
    buildConds none none (some q) = [fun row => likeTextCond q row] := by
  have hmap : q.data.map pyLowerChar = q.data.map asciiLower :=
    map_eq_of_pointwise q.data pyLowerChar asciiLower
      (fun c hc => pyLowerChar_eq_asciiLower_of_ascii c (hasciiq c hc))
  constructor
  · unfold likeTextCond
    cases hrt : r.text with
    | none => simp
    | some t =>
      show likeM ('%' :: (List.map pyLowerChar q.data ++ ['%'])) (List.map asciiLower t.data) =
        true ↔ ∃ t2, some t = some t2 ∧ containsCI q.data t2.data = true
      rw [hmap]
      rw [likeM_wrapped_eq_containsCI _ (map_asciiLower_no_metachar q.data hmeta) _]
      rw [containsCI_map_asciiLower]
      simp
  · have hqe : (q == "") = false := by
      apply beq_eq_false_iff_ne.mpr
      intro h
      subst h
      exact hq rfl
    simp [buildConds, hqe]

/-- C8 counterexample: with `q = "_"` and a row whose text is `"a"`, the
code includes the row (`_` matches any single character under `LIKE`),
although `_` does not occur in `"a"` as a literal substring, even
case-insensitively. -/
theorem likeTextCond_wildcard_cex :
    likeTextCond "_" ⟨"m1", "+1", "+2", "2025-01-01T00:00:00Z", some "a", "c0"⟩ = true ∧
    containsCI ("_").data ("a").data = false :=
  ⟨by decide, by decide⟩

/-- C8 witness: query `AbC` against text `xxabcyy`. -/
theorem likeTextCond_substring_witness :
    (("AbC").data ≠ [] ∧
      (∀ c ∈ ("AbC").data, c.toNat < 128) ∧
      ∀ c ∈ ("AbC").data, (c == '%') = false ∧ (c == '_') = false) ∧
    ((likeTextCond "AbC" ⟨"m1", "+1", "+2", "2025-01-01T00:00:00Z", some "xxabcyy", "c0"⟩ = true ↔
      ∃ t, (⟨"m1", "+1", "+2", "2025-01-01T00:00:00Z", some "xxabcyy", "c0"⟩ : Row).text = some t ∧
        containsCI ("AbC").data t.data = true) ∧
     buildConds none none (some "AbC") = [fun row => likeTextCond "AbC" row]) :=
  ⟨⟨by decide, by decide, by decide⟩,
   likeTextCond_substring "AbC" ⟨"m1", "+1", "+2", "2025-01-01T00:00:00Z", some "xxabcyy", "c0"⟩
     (by decide) (by decide) (by decide)⟩

theorem foldlMin_mem (t : String) (ts : List String) :
    ts.foldl (fun m x => if x.data < m.data then x else m) t ∈ t :: ts := by
  induction ts generalizing t with
  | nil => exact List.mem_cons_self _ _
  | cons x xs ih =>
    rw [List.foldl_cons]
    rcases List.mem_cons.mp (ih (if x.data < t.data then x else t)) with h | h
    · rw [h]
      by_cases hx : x.data < t.data
      · rw [if_pos hx]
        exact List.mem_cons_of_mem _ (List.mem_cons_self _ _)
      · rw [if_neg hx]
        exact List.mem_cons_self _ _
    · exact List.mem_cons_of_mem _ (List.mem_cons_of_mem _ h)

theorem foldlMin_le (t : String) (ts : List String) :
    ∀ y ∈ t :: ts, (ts.foldl (fun m x => if x.data < m.data then x else m) t).data ≤ y.data := by
  induction ts generalizing t with
  | nil =>
    intro y hy
    rcases List.mem_cons.mp hy with rfl | h
    · exact le_refl _
    · exact absurd h (List.not_mem_nil y)
  | cons x xs ih =>
    intro y hy
    rw [List.foldl_cons]
    have hacc1 : (if x.data < t.data then x else t).data ≤ t.data := by
      by_cases hx : x.data < t.data
      · rw [if_pos hx]; exact le_of_lt hx
      · rw [if_neg hx]
    have hacc2 : (if x.data < t.data then x else t).data ≤ x.data := by
      by_cases hx : x.data < t.data
      · rw [if_pos hx]
      · rw [if_neg hx]; exact not_lt.mp hx
    have hres := ih (if x.data < t.data then x else t) _ (List.mem_cons_self _ _)
    rcases List.mem_cons.mp hy with rfl | hy2
    · exact le_trans hres hacc1
    · rcases List.mem_cons.mp hy2 with rfl | hy3
      · exact le_trans hres hacc2
      · exact ih _ y (List.mem_cons_of_mem _ hy3)

theorem foldlMax_mem (t : String) (ts : List String) :
    ts.foldl (fun m x => if m.data < x.data then x else m) t ∈ t :: ts := by
  induction ts generalizing t with
  | nil => exact List.mem_cons_self _ _
  | cons x xs ih =>
    rw [List.foldl_cons]
    rcases List.mem_cons.mp (ih (if t.data < x.data then x else t)) with h | h
    · rw [h]
      by_cases hx : t.data < x.data
      · rw [if_pos hx]
        exact List.mem_cons_of_mem _ (List.mem_cons_self _ _)
      · rw [if_neg hx]
        exact List.mem_cons_self _ _
    · exact List.mem_cons_of_mem _ (List.mem_cons_of_mem _ h)

theorem foldlMax_le (t : String) (ts : List String) :
    ∀ y ∈ t :: ts, y.data ≤ (ts.foldl (fun m x => if m.data < x.data then x else m) t).data := by
  induction ts generalizing t with
  | nil =>
    intro y hy
    rcases List.mem_cons.mp hy with rfl | h
    · exact le_refl _
    · exact absurd h (List.not_mem_nil y)
  | cons x xs ih =>
    intro y hy
    rw [List.foldl_cons]
    have hacc1 : t.data ≤ (if t.data < x.data then x else t).data := by
      by_cases hx : t.data < x.data
      · rw [if_pos hx]; exact le_of_lt hx
      · rw [if_neg hx]
    have hacc2 : x.data ≤ (if t.data < x.data then x else t).data := by
      by_cases hx : t.data < x.data
      · rw [if_pos hx]
      · rw [if_neg hx]; exact not_lt.mp hx
    have hres := ih (if t.data < x.data then x else t) _ (List.mem_cons_self _ _)
    rcases List.mem_cons.mp hy with rfl | hy2
    · exact le_trans hacc1 hres
    · rcases List.mem_cons.mp hy2 with rfl | hy3
      · exact le_trans hacc2 hres
      · exact ih _ y (List.mem_cons_of_mem _ hy3)

/-- C4: under the data-model invariant that stored timestamps are
non-empty (they end with `Z`), `Database.get_stats` reports the total row
count, the number of distinct senders, a `messages_per_sender` list of at
most ten distinct senders with their exact message counts, ordered by
count descending and dominating every sender left out (the top ten), and
the minimum and maximum stored timestamp, both absent exactly when the
store is empty.  Ties between equal counts are broken by one fixed rule:
the result is a function of the store alone, so repeated calls against the
same store agree. -/
theorem get_stats_aggregate_spec (store : List Row)
    (hts : ∀ r ∈ store, r.ts ≠ "") :
    (get_stats false store).total_messages = store.length ∧
    (get_stats false store).senders_count =
      (store.map (fun r => r.from_msisdn)).dedup.length ∧
    (get_stats false store).messages_per_sender.length =
      min 10 ((store.map (fun r => r.from_msisdn)).dedup.length) ∧
    List.Pairwise (fun a b : String × Nat => b.2 ≤ a.2)
      (get_stats false store).messages_per_sender ∧
    (∀ p ∈ (get_stats false store).messages_per_sender,
      p.1 ∈ (store.map (fun r => r.from_msisdn)).dedup ∧
      p.2 = store.countP (fun r2 => r2.from_msisdn == p.1)) ∧
    ((get_stats false store).messages_per_sender.map Prod.fst).Nodup ∧
    (∀ g ∈ (store.map (fun r => r.from_msisdn)).dedup,
      g ∉ (get_stats false store).messages_per_sender.map Prod.fst →
      ∀ p ∈ (get_stats false store).messages_per_sender,
        store.countP (fun r2 => r2.from_msisdn == g) ≤ p.2) ∧
    (store = [] → (get_stats false store).first_message_ts = none ∧
      (get_stats false store).last_message_ts = none) ∧
    (store ≠ [] → ∃ m, (get_stats false store).first_message_ts = some m ∧
      m ∈ store.map (fun r => r.ts) ∧
      ∀ t ∈ store.map (fun r => r.ts), m.data ≤ t.data) ∧
    (store ≠ [] → ∃ m, (get_stats false store).last_message_ts = some m ∧
      m ∈ store.map (fun r => r.ts) ∧
      ∀ t ∈ store.map (fun r => r.ts), t.data ≤ m.data) := by
  have hG := List.perm_insertionSort strAsc (store.map (fun r => r.from_msisdn)).dedup
  have hSperm := List.perm_insertionSort countDesc
    ((List.insertionSort strAsc (store.map (fun r => r.from_msisdn)).dedup).map
      (fun f => (f, store.countP (fun r2 => r2.from_msisdn == f))))
  have hSsorted := List.sorted_insertionSort countDesc
    ((List.insertionSort strAsc (store.map (fun r => r.from_msisdn)).dedup).map
      (fun f => (f, store.countP (fun r2 => r2.from_msisdn == f))))
  have hmps : (get_stats false store).messages_per_sender =
      (List.insertionSort countDesc
        ((List.insertionSort strAsc (store.map (fun r => r.from_msisdn)).dedup).map
          (fun f => (f, store.countP (fun r2 => r2.from_msisdn == f))))).take 10 := rfl
  refine ⟨rfl, rfl, ?_, ?_, ?_, ?_, ?_, ?_, ?_, ?_⟩
  · rw [hmps, List.length_take, hSperm.length_eq, List.length_map, hG.length_eq]
  · rw [hmps]
    exact (List.Pairwise.sublist (List.take_sublist 10 _) hSsorted).imp (fun h => h)
  · intro p hp
    rw [hmps] at hp
    have hp2 := hSperm.subset ((List.take_sublist 10 _).subset hp)
    rcases List.mem_map.mp hp2 with ⟨g, hg, rfl⟩
    exact ⟨(List.mem_insertionSort strAsc).mp hg, rfl⟩
  · rw [hmps]
    have hnodup : (((List.insertionSort strAsc (store.map (fun r => r.from_msisdn)).dedup).map
        (fun f => (f, store.countP (fun r2 => r2.from_msisdn == f)))).map Prod.fst).Nodup := by
      rw [List.map_map]
      have hid : ((List.insertionSort strAsc (store.map (fun r => r.from_msisdn)).dedup).map
          (Prod.fst ∘ fun f => (f, store.countP (fun r2 => r2.from_msisdn == f)))) =
          List.insertionSort strAsc (store.map (fun r => r.from_msisdn)).dedup :=
        List.map_id _
      rw [hid]
      exact hG.nodup_iff.mpr (List.nodup_dedup _)
    exact ((List.take_sublist 10 _).map Prod.fst).nodup
      ((hSperm.map Prod.fst).nodup_iff.mpr hnodup)
  · intro g hg hgnot p hp
    rw [hmps] at hgnot hp
    have hgG : g ∈ List.insertionSort strAsc (store.map (fun r => r.from_msisdn)).dedup :=
      (List.mem_insertionSort strAsc).mpr hg
    have hgS : (g, store.countP (fun r2 => r2.from_msisdn == g)) ∈
        List.insertionSort countDesc
          ((List.insertionSort strAsc (store.map (fun r => r.from_msisdn)).dedup).map
            (fun f => (f, store.countP (fun r2 => r2.from_msisdn == f)))) :=
      (List.mem_insertionSort countDesc).mpr (List.mem_map_of_mem _ hgG)
    have hsplit := (List.take_append_drop 10
      (List.insertionSort countDesc
        ((List.insertionSort strAsc (store.map (fun r => r.from_msisdn)).dedup).map
          (fun f => (f, store.countP (fun r2 => r2.from_msisdn == f)))))).symm
    have hcross := (List.pairwise_append.mp (hsplit ▸ hSsorted)).2.2
    have hdrop : (g, store.countP (fun r2 => r2.from_msisdn == g)) ∈
        (List.insertionSort countDesc
          ((List.insertionSort strAsc (store.map (fun r => r.from_msisdn)).dedup).map
            (fun f => (f, store.countP (fun r2 => r2.from_msisdn == f))))).drop 10 := by
      rcases List.mem_append.mp (hsplit ▸ hgS) with h | h
      · exact absurd (List.mem_map_of_mem Prod.fst h) hgnot
      · exact h
    exact hcross p hp _ hdrop
  · intro h
    subst h
    exact ⟨rfl, rfl⟩
  · intro hne
    cases store with
    | nil => exact absurd rfl hne
    | cons r rest =>
      have hmem := foldlMin_mem r.ts (rest.map (fun r2 => r2.ts))
      have hmne : (rest.map (fun r2 => r2.ts)).foldl
          (fun m x => if x.data < m.data then x else m) r.ts ≠ "" := by
        rcases List.mem_cons.mp hmem with heq | hm
        · rw [heq]
          exact hts r (List.mem_cons_self _ _)
        · rcases List.mem_map.mp hm with ⟨r2, hr2, heq⟩
          rw [← heq]
          exact hts r2 (List.mem_cons_of_mem _ hr2)
      refine ⟨(rest.map (fun r2 => r2.ts)).foldl
        (fun m x => if x.data < m.data then x else m) r.ts, ?_, ?_, ?_⟩
      · show (if ((rest.map (fun r2 => r2.ts)).foldl
            (fun m x => if x.data < m.data then x else m) r.ts == "") = true
          then none
          else some ((rest.map (fun r2 => r2.ts)).foldl
            (fun m x => if x.data < m.data then x else m) r.ts)) = _
        rw [beq_eq_false_iff_ne.mpr hmne]
        simp
      · exact hmem
      · intro t ht
        have ht2 : t ∈ r.ts :: rest.map (fun r2 => r2.ts) := ht
        exact foldlMin_le r.ts (rest.map (fun r2 => r2.ts)) t ht2
  · intro hne
    cases store with
    | nil => exact absurd rfl hne
    | cons r rest =>
      have hmem := foldlMax_mem r.ts (rest.map (fun r2 => r2.ts))
      have hmne : (rest.map (fun r2 => r2.ts)).foldl
          (fun m x => if m.data < x.data then x else m) r.ts ≠ "" := by
        rcases List.mem_cons.mp hmem with heq | hm
        · rw [heq]
          exact hts r (List.mem_cons_self _ _)
        · rcases List.mem_map.mp hm with ⟨r2, hr2, heq⟩
          rw [← heq]
          exact hts r2 (List.mem_cons_of_mem _ hr2)
      refine ⟨(rest.map (fun r2 => r2.ts)).foldl
        (fun m x => if m.data < x.data then x else m) r.ts, ?_, ?_, ?_⟩
      · show (if ((rest.map (fun r2 => r2.ts)).foldl
            (fun m x => if m.data < x.data then x else m) r.ts == "") = true
          then none
          else some ((rest.map (fun r2 => r2.ts)).foldl
            (fun m x => if m.data < x.data then x else m) r.ts)) = _
        rw [beq_eq_false_iff_ne.mpr hmne]
        simp
      · exact hmem
      · intro t ht
        have ht2 : t ∈ r.ts :: rest.map (fun r2 => r2.ts) := ht
        exact foldlMax_le r.ts (rest.map (fun r2 => r2.ts)) t ht2

/-- C4 witness: the specification example — three messages from `+1`, one
from `+2`. -/
theorem get_stats_aggregate_spec_witness :
    (∀ r ∈ [(⟨"m1", "+1", "+9", "2025-01-01T00:00:00Z", none, "c"⟩ : Row),
      ⟨"m2", "+1", "+9", "2025-01-02T00:00:00Z", none, "c"⟩,
      ⟨"m3", "+1", "+9", "2025-01-03T00:00:00Z", none, "c"⟩,
      ⟨"m4", "+2", "+9", "2025-01-04T00:00:00Z", none, "c"⟩], r.ts ≠ "") ∧
    (get_stats false [⟨"m1", "+1", "+9", "2025-01-01T00:00:00Z", none, "c"⟩,
      ⟨"m2", "+1", "+9", "2025-01-02T00:00:00Z", none, "c"⟩,
      ⟨"m3", "+1", "+9", "2025-01-03T00:00:00Z", none, "c"⟩,
      ⟨"m4", "+2", "+9", "2025-01-04T00:00:00Z", none, "c"⟩]).total_messages = 4 ∧
    (get_stats false [⟨"m1", "+1", "+9", "2025-01-01T00:00:00Z", none, "c"⟩,
      ⟨"m2", "+1", "+9", "2025-01-02T00:00:00Z", none, "c"⟩,
      ⟨"m3", "+1", "+9", "2025-01-03T00:00:00Z", none, "c"⟩,
      ⟨"m4", "+2", "+9", "2025-01-04T00:00:00Z", none, "c"⟩]).senders_count = 2 :=
  ⟨by decide,
   (get_stats_aggregate_spec [⟨"m1", "+1", "+9", "2025-01-01T00:00:00Z", none, "c"⟩,
      ⟨"m2", "+1", "+9", "2025-01-02T00:00:00Z", none, "c"⟩,
      ⟨"m3", "+1", "+9", "2025-01-03T00:00:00Z", none, "c"⟩,
      ⟨"m4", "+2", "+9", "2025-01-04T00:00:00Z", none, "c"⟩] (by decide)).1,
   (get_stats_aggregate_spec [⟨"m1", "+1", "+9", "2025-01-01T00:00:00Z", none, "c"⟩,
      ⟨"m2", "+1", "+9", "2025-01-02T00:00:00Z", none, "c"⟩,
      ⟨"m3", "+1", "+9", "2025-01-03T00:00:00Z", none, "c"⟩,
      ⟨"m4", "+2", "+9", "2025-01-04T00:00:00Z", none, "c"⟩] (by decide)).2.1⟩
